import Mathlib

/-!
Verification development for the client-side job queue and settings-resolution
engine of the Luminol image-analysis frontend.

The definitions below are a shallow embedding of the queue manager in the
application component (file `App.jsx`): the layered settings resolver used by
`buildFormData`, the per-item lifecycle patches (`handleFiles`, `removeItem`,
`updateItemSettings`, `retryItem`, `processSingleItem`), the capture-mode
invalidation effect, the debounced preview registry (`onPreview`), and the CSV
serializer (`exportCSV`).  Scripting-language field values are modelled by an
explicit value type with the truthiness used by the source (`||` skips empty
strings and numeric zero, `??` skips only absent values); numbers are modelled
by rationals.  The asynchronous behaviour is modelled as an event-step machine:
each event is one handler invocation (or one suspension-point resumption), and
state updates written through functional updaters apply to the current state,
while a handler that reads component state reads the state of the render that
created it (this matters for the queue snapshot taken by a pass started from
the retry handler, and for the pass-wide capture of the global settings).
-/

/-- A scripting-language field value: a number or a string.  A missing field
is represented as `Option JVal` being `none`. -/
inductive JVal where
  | num (q : ℚ)
  | str (s : String)
deriving DecidableEq

/-- Truthiness of a value: numeric zero and the empty string are falsy. -/
def JVal.truthy : JVal → Bool
  | .num q => q ≠ 0
  | .str s => s ≠ ""

/-- Embedding of `a || b` where `a` may be absent and `b` is a fallback value:
returns `a` when present and truthy, otherwise `b`. -/
def jsOrD (a : Option JVal) (b : JVal) : JVal :=
  match a with
  | some v => if v.truthy then v else b
  | none => b

/-- Embedding of `a ?? b` (first operand optional, fallback a value). -/
def nuD (a : Option JVal) (b : JVal) : JVal :=
  match a with
  | some v => v
  | none => b

/-- Embedding of `a ?? b` on two optional operands. -/
def nu (a b : Option JVal) : Option JVal :=
  match a with
  | some v => some v
  | none => b

/-- Resolver for the numeric fields of `buildFormData`:
`item.overrides?.f || item.globalSettingsUsed?.f || globalSettings.f || 0`. -/
def resolveNum (ov snap glob : Option JVal) : JVal :=
  jsOrD ov (jsOrD snap (jsOrD glob (JVal.num 0)))

/-- Resolver for the sensitivity field of `buildFormData`:
`sensitivityOverride ?? item.overrides?.sensitivity ??
 item.globalSettingsUsed?.sensitivity ?? globalSettings.sensitivity ?? 50`. -/
def resolveSens (sOv ov snap glob : Option JVal) : JVal :=
  nuD (nu (nu (nu sOv ov) snap) glob) (JVal.num 50)

/-- Spec-side definition (from the words of the specification): the first
non-empty value of a precedence list, where a value is empty when it is absent
or the empty string. -/
def firstNonEmpty : List (Option JVal) → Option JVal
  | [] => none
  | none :: rest => firstNonEmpty rest
  | some v :: rest => if v = JVal.str "" then firstNonEmpty rest else some v

/-- A numeric slot is admissible when it does not hold the number `0`.
In the program, the numeric parameter slots hold either a raw input string,
a nonzero parsed number, or an empty marker (the number-input handlers map a
zero parse result to the empty string), so numeric zero never occurs there. -/
def numSlotOk (x : Option JVal) : Bool :=
  x != some (JVal.num 0)

/-- A sensitivity slot is admissible when it holds a number if present (the
sensitivity slots are only ever written from sliders through integer parses). -/
def sensSlotOk (x : Option JVal) : Bool :=
  match x with
  | some (.str _) => false
  | _ => true

/-- Item lifecycle status. -/
inductive Status where
  | pending
  | processing
  | success
  | error
deriving DecidableEq

/-- Capture mode flag. -/
inductive Mode where
  | jpeg
  | raw
deriving DecidableEq

/-- Global acquisition settings; every field is always present as a value
(possibly the empty string written by a cleared number input). -/
structure GSettings where
  t : JVal
  iso : JVal
  f : JVal
  sensitivity : JVal
deriving DecidableEq

/-- Per-item overrides; fields are absent until the user edits them. -/
structure Overrides where
  t : Option JVal
  iso : Option JVal
  sensitivity : Option JVal
deriving DecidableEq

/-- The effective parameter record stored as `usedSettings` /
`lastAnalyzedWith`. -/
structure Used where
  t : JVal
  iso : JVal
  sensitivity : JVal
  captureMode : Mode
deriving DecidableEq

/-- The metrics bundle of an analysis response (fields optional). -/
structure Metrics where
  mean_linear_core : Option ℚ
  integrated_linear_core : Option ℚ
  max_linear_core : Option ℚ
  p99_5_linear_core : Option ℚ
  mean_norm : Option ℚ
  integrated_norm : Option ℚ
  max_norm : Option ℚ
  core_area_px : Option ℚ
  saturation_ratio : Option ℚ
deriving DecidableEq

/-- An analysis response payload. -/
structure AnalysisResult where
  status : String
  message : Option String
  is_black_box : Option Bool
  blue_detected : Option Bool
  metrics : Option Metrics
deriving DecidableEq

/-- A partial payload returned by the preview endpoint; present fields
overwrite the corresponding fields of the stored result on merge. -/
structure PreviewData where
  is_black_box : Option Bool
  blue_detected : Option Bool
  metrics : Option Metrics
deriving DecidableEq

/-- The empty object used as merge base when the stored result is absent. -/
def emptyResult : AnalysisResult :=
  { status := "", message := none, is_black_box := none,
    blue_detected := none, metrics := none }

/-- Merge of a preview payload over a stored result, as the object spread
`\x7b ...i.result, ...data \x7d`. -/
def mergeResult (old : Option AnalysisResult) (p : PreviewData) : AnalysisResult :=
  let b := old.getD emptyResult
  { b with
    is_black_box := (match p.is_black_box with
        | some v => some v
        | none => b.is_black_box)
    , blue_detected := (match p.blue_detected with
        | some v => some v
        | none => b.blue_detected)
    , metrics := (match p.metrics with
        | some v => some v
        | none => b.metrics) }

/-- A queue item. -/
structure Item where
  id : String
  name : String
  status : Status
  progress : ℚ
  result : Option AnalysisResult
  error : Option String
  preview : String
  globalSettingsUsed : GSettings
  overrides : Overrides
  dirty : Bool
  lastAnalyzedWith : Option Used
deriving DecidableEq

/-- A file handed to `handleFiles`, together with the fresh id and the object
URL acquired for it. -/
structure FileSpec where
  id : String
  name : String
  previewUrl : String
deriving DecidableEq

/-- Construction of a fresh queue item in `handleFiles`. -/
def mkItem (g : GSettings) (f : FileSpec) : Item :=
  { id := f.id, name := f.name, status := Status.pending, progress := 0,
    result := none, error := none, preview := f.previewUrl,
    globalSettingsUsed := g, overrides := ⟨none, none, none⟩,
    dirty := false, lastAnalyzedWith := none }

/-- Queue extension performed by `handleFiles`. -/
def addFilesQ (g : GSettings) (fs : List FileSpec) (q : List Item) : List Item :=
  q ++ fs.map (mkItem g)

/-- Queue filtering performed by `removeItem` (and nothing else happens
there: in particular no object URL is revoked and no timer is cleared). -/
def removeId (id : String) (q : List Item) : List Item :=
  q.filter (fun i => i.id != id)

/-- The effective parameters assembled by `buildFormData` for one item:
every field is resolved from that field of the layered sources only. -/
def buildUsedSettings (it : Item) (sensOv : Option JVal) (g : GSettings)
    (mode : Mode) : Used :=
  { t := resolveNum it.overrides.t (some it.globalSettingsUsed.t) (some g.t)
    , iso := resolveNum it.overrides.iso (some it.globalSettingsUsed.iso)
        (some g.iso)
    , sensitivity := resolveSens sensOv it.overrides.sensitivity
        (some it.globalSettingsUsed.sensitivity) (some g.sensitivity)
    , captureMode := mode }

/-- Leading digits of a character list. -/
def takeDigits : List Char → List Char × List Char
  | [] => ([], [])
  | c :: rest =>
      if c.isDigit then
        let p := takeDigits rest
        (c :: p.1, p.2)
      else ([], c :: rest)

/-- Numeric value of a digit list. -/
def digitsToNat (l : List Char) : ℕ :=
  l.foldl (fun a c => 10 * a + (c.toNat - 48)) 0

/-- Embedding of the scripting-language float parse on a string: an optional
sign, integer digits, an optional fraction; `none` models the not-a-number
result (no exponent forms are modelled, none occur in the program). -/
def jsParseFloat (s : String) : Option ℚ :=
  let l := s.toList
  let sl : ℚ × List Char :=
    match l with
    | '-' :: r => (-1, r)
    | '+' :: r => (1, r)
    | _ => (1, l)
  let ip := takeDigits sl.2
  match ip.2 with
  | '.' :: r3 =>
      let fp := takeDigits r3
      if ip.1 = [] ∧ fp.1 = [] then none
      else some (sl.1 * ((digitsToNat ip.1 : ℚ) +
        (digitsToNat fp.1 : ℚ) / (10 : ℚ) ^ fp.1.length))
  | _ => if ip.1 = [] then none else some (sl.1 * (digitsToNat ip.1 : ℚ))

/-- `parseFloat` applied to a field value: a number parses to itself, a string
is parsed; `none` models not-a-number. -/
def parseFloatJ : JVal → Option ℚ
  | .num q => some q
  | .str s => jsParseFloat s

/-- Embedding of the strict inequality `parseFloat a !== parseFloat b`:
not-a-number compares unequal to everything, itself included. -/
def jsStrictNeq (a b : Option ℚ) : Bool :=
  match a, b with
  | some x, some y => x ≠ y
  | _, _ => true

/-- Per-item transform of `updateItemSettings`: on the matching item, the
overrides are replaced and the item is marked dirty when it is in `success`
status and the newly resolved sensitivity differs from the sensitivity of the
last analysis (each side falling back to the current global sensitivity);
the previous dirty flag is kept through a disjunction. -/
def updateOneItem (id : String) (newOv : Overrides) (g : GSettings)
    (i : Item) : Item :=
  if i.id = id then
    let lastSens := nuD (i.lastAnalyzedWith.map (fun u => u.sensitivity))
      g.sensitivity
    let newSens := nuD newOv.sensitivity g.sensitivity
    let isDirty := decide (i.status = Status.success) &&
      jsStrictNeq (parseFloatJ newSens) (parseFloatJ lastSens)
    { i with overrides := newOv, dirty := isDirty || i.dirty }
  else i

/-- Queue transform of `updateItemSettings`. -/
def updateItemSettings (id : String) (newOv : Overrides) (g : GSettings)
    (q : List Item) : List Item :=
  q.map (updateOneItem id newOv g)

/-- Per-item transform of the queue patch in `retryItem`. -/
def retryOne (id : String) (i : Item) : Item :=
  if i.id = id then
    { i with
      status := Status.pending
      error := none
      result := none
      progress := 0
      dirty := false }
  else i

/-- Queue transform of the patch in `retryItem`. -/
def retryPatch (id : String) (q : List Item) : List Item :=
  q.map (retryOne id)

/-- Per-item transform of the capture-mode-change effect: items in a terminal
status are marked dirty, all other items are returned as they are. -/
def markOneDirty (i : Item) : Item :=
  if decide (i.status = Status.success) || decide (i.status = Status.error) then
    { i with dirty := true }
  else i

/-- Queue transform of the capture-mode-change effect. -/
def markModeDirty (q : List Item) : List Item :=
  q.map markOneDirty

/-- Queue transform of the preview-response merge in `onPreview`: the stored
result of the matching item is merged with the payload and the item is marked
dirty, whatever its status; other items are untouched. -/
def previewApply (id : String) (p : PreviewData) (q : List Item) : List Item :=
  q.map (fun i =>
    if i.id = id then
      { i with result := some (mergeResult i.result p), dirty := true }
    else i)

/-- Queue transform of the first update in `processSingleItem`. -/
def processStart (id : String) (q : List Item) : List Item :=
  q.map (fun i =>
    if i.id = id then
      { i with status := Status.processing, progress := 10, dirty := false }
    else i)

/-- Queue transform of the success update in `processSingleItem`. -/
def successPatch (id : String) (data : AnalysisResult) (used : Used)
    (g : GSettings) (q : List Item) : List Item :=
  q.map (fun i =>
    if i.id = id then
      { i with
        status := Status.success
        progress := 100
        result := some data
        dirty := false
        lastAnalyzedWith := some used
        globalSettingsUsed := g }
    else i)

/-- Queue transform of the backend-reported-failure update in
`processSingleItem`. -/
def errorPatchB (id : String) (data : AnalysisResult) (q : List Item) :
    List Item :=
  q.map (fun i =>
    if i.id = id then
      { i with
        status := Status.error
        progress := 100
        error := data.message
        result := some data }
    else i)

/-- Queue transform of the transport-failure update in `processSingleItem`
(the stored result is left as it was). -/
def errorPatchNet (id : String) (msg : String) (q : List Item) : List Item :=
  q.map (fun i =>
    if i.id = id then
      { i with
        status := Status.error
        progress := 100
        error := some (if msg = "" then "Network Error" else msg) }
    else i)

/-- The snapshot taken at the start of `processQueue`: the items currently
pending or dirty, in queue order. -/
def passSnapshot (q : List Item) : List Item :=
  q.filter (fun i => decide (i.status = Status.pending) || i.dirty)

/-- Decimal cell rendering of a rational: integers print as plain integers.
The reference implementation prints the shortest decimal form of a binary
float; every numeric cell appearing in a theorem below is an integer, where
the two renderings coincide, so the non-integral branch (printed here as a
fraction) is never exercised. -/
def ratStr (x : ℚ) : String :=
  if x.den = 1 then toString x.num
  else toString x.num ++ "/" ++ toString x.den

/-- Cell text of a field value. -/
def jvalCell : JVal → String
  | .num q => ratStr q
  | .str s => s

/-- Cell text of an optional metric (`m?.field ?? ''`). -/
def optCell : Option ℚ → String
  | some v => ratStr v
  | none => ""

/-- Cell text of the truthiness checks
`item.result?.is_black_box ? 'Yes' : 'No'` and
`item.result?.blue_detected ? 'Yes' : 'No'`. -/
def yesNoCell (b : Option Bool) : String :=
  if b.getD false then "Yes" else "No"

/-- Capture mode cell text. -/
def modeStr : Mode → String
  | .jpeg => "jpeg"
  | .raw => "raw"

/-- Status cell text. -/
def statusStr : Status → String
  | .pending => "pending"
  | .processing => "processing"
  | .success => "success"
  | .error => "error"

/-- The header row of `exportCSV`. -/
def csvHeaders : List String :=
  ["Filename", "CaptureMode", "BlackBox", "BlueDetected",
   "MeanLinearCore", "IntegratedLinearCore", "MaxLinearCore", "P99.5LinearCore",
   "MeanNorm", "IntegratedNorm", "MaxNorm",
   "CoreAreaPx", "SaturationRatio",
   "ShutterSpeed", "ISO", "Sensitivity", "Status", "Error"]

/-- Settings record used for the parameter cells:
`item.lastAnalyzedWith || item.globalSettingsUsed` projected on one field. -/
def srcT (it : Item) : JVal :=
  match it.lastAnalyzedWith with
  | some u => u.t
  | none => it.globalSettingsUsed.t

/-- ISO parameter cell source. -/
def srcIso (it : Item) : JVal :=
  match it.lastAnalyzedWith with
  | some u => u.iso
  | none => it.globalSettingsUsed.iso

/-- Sensitivity parameter cell source. -/
def srcSens (it : Item) : JVal :=
  match it.lastAnalyzedWith with
  | some u => u.sensitivity
  | none => it.globalSettingsUsed.sensitivity

/-- Metric cell of one row. -/
def metricCell (f : Metrics → Option ℚ) (it : Item) : String :=
  optCell ((it.result.bind (fun r => r.metrics)).bind f)

/-- The cells of one exported row, in the fixed column order of `exportCSV`. -/
def rowCells (mode : Mode) (it : Item) : List String :=
  [it.name,
   modeStr mode,
   yesNoCell (it.result.bind (fun r => r.is_black_box)),
   yesNoCell (it.result.bind (fun r => r.blue_detected)),
   metricCell (fun m => m.mean_linear_core) it,
   metricCell (fun m => m.integrated_linear_core) it,
   metricCell (fun m => m.max_linear_core) it,
   metricCell (fun m => m.p99_5_linear_core) it,
   metricCell (fun m => m.mean_norm) it,
   metricCell (fun m => m.integrated_norm) it,
   metricCell (fun m => m.max_norm) it,
   metricCell (fun m => m.core_area_px) it,
   metricCell (fun m => m.saturation_ratio) it,
   jvalCell (srcT it),
   jvalCell (srcIso it),
   jvalCell (srcSens it),
   statusStr it.status,
   it.error.getD ""]

/-- One serialized line: the raw cells joined with commas, with no quoting
and no escaping (`r.join(',')`). -/
def joinLine (cells : List String) : String :=
  String.intercalate "," cells

/-- The full export of `exportCSV`: header line and one line per item in
queue order, joined with newlines; an empty queue produces no file. -/
def exportCSV (mode : Mode) (q : List Item) : Option String :=
  if q.isEmpty then none
  else some (String.intercalate "\n"
    (joinLine csvHeaders :: q.map (fun it => joinLine (rowCells mode it))))

/-- The item fields the export reads: name, status, error, result, and the
parameter record (`lastAnalyzedWith` with `globalSettingsUsed` fallback). -/
def exportObs (it : Item) :
    String × Status × Option String × Option AnalysisResult ×
      Option Used × GSettings :=
  (it.name, it.status, it.error, it.result, it.lastAnalyzedWith,
   it.globalSettingsUsed)

/-- A request or response marker in the analysis-request log. -/
inductive AEvent where
  | req (id : String)
  | resp (id : String)
deriving DecidableEq

/-- The interleaved request/response log segment of one pass over the given
item ids: each request is answered before the next is issued. -/
def reqRespSeq : List String → List AEvent
  | [] => []
  | i :: rest => AEvent.req i :: AEvent.resp i :: reqRespSeq rest

/-- Checks that a log never has a second request issued while one is
unanswered, starting from the given number in flight. -/
def atMostOne : List AEvent → ℕ → Bool
  | [], _ => true
  | AEvent.req _ :: rest, n => n == 0 && atMostOne rest (n + 1)
  | AEvent.resp _ :: rest, n => atMostOne rest (n - 1)

/-- Outcome of one full-analysis request: a structured response (whose own
status field decides success) or a transport failure. -/
inductive Outcome where
  | respond (data : AnalysisResult)
  | netFail (msg : String)
deriving DecidableEq

/-- The application state: the queue, the global settings and capture mode,
the pass lock with the remaining snapshot and the pass-wide captured settings,
the preview timer registry and in-flight preview requests, the log of revoked
object URLs and the log of issued analysis requests and responses. -/
structure AppState where
  queue : List Item
  globals : GSettings
  mode : Mode
  isProcessing : Bool
  passRemaining : List Item
  passG : GSettings
  passMode : Mode
  timers : List (String × ℚ)
  inflightPrev : List (String × ℚ)
  revoked : List String
  alog : List AEvent
deriving DecidableEq

/-- Events of the machine: one user-handler invocation or one resumption at a
suspension point (a timer firing, a response arriving, one loop iteration of a
pass). -/
inductive Ev where
  | addFiles (fs : List FileSpec)
  | removeIt (id : String)
  | clearQ
  | updateOv (id : String) (ov : Overrides)
  | retry (id : String)
  | setMode (m : Mode)
  | startPass
  | passStep (o : Outcome)
  | schedPreview (id : String) (v : ℚ)
  | timerFire (id : String)
  | prevResp (id : String) (p : PreviewData)
deriving DecidableEq

/-- The step function of the machine.  Notes on fidelity to the source:
`removeIt` only filters the queue (no revocation, no timer cancellation);
`retry` patches the queue and, when no pass is running, starts one whose
snapshot is taken from the queue of the render that created the handler,
which does not yet contain the retry patch; a pass captures the global
settings and capture mode at its start; a pass whose snapshot is empty
releases its lock before any suspension, so it is modelled as not taking the
lock at all; `passStep` processes the head of the snapshot against the live
queue keyed by id, so a removed id is patched nowhere. -/
def step (s : AppState) (e : Ev) : AppState :=
  match e with
  | .addFiles fs => { s with queue := addFilesQ s.globals fs s.queue }
  | .removeIt id => { s with queue := removeId id s.queue }
  | .clearQ =>
      { s with
        revoked := s.revoked ++ s.queue.map (fun i => i.preview)
        queue := [] }
  | .updateOv id ov =>
      { s with queue := updateItemSettings id ov s.globals s.queue }
  | .retry id =>
      let q2 := retryPatch id s.queue
      if s.isProcessing then { s with queue := q2 }
      else
        let snap := passSnapshot s.queue
        if snap.isEmpty then { s with queue := q2 }
        else
          { s with
            queue := q2
            isProcessing := true
            passRemaining := snap
            passG := s.globals
            passMode := s.mode }
  | .setMode m =>
      if m = s.mode then s
      else { s with mode := m, queue := markModeDirty s.queue }
  | .startPass =>
      if s.isProcessing then s
      else
        let snap := passSnapshot s.queue
        if snap.isEmpty then s
        else
          { s with
            isProcessing := true
            passRemaining := snap
            passG := s.globals
            passMode := s.mode }
  | .passStep o =>
      match s.passRemaining with
      | [] => s
      | it :: rest =>
          let used := buildUsedSettings it none s.passG s.passMode
          let q1 := processStart it.id s.queue
          let q2 :=
            match o with
            | .respond data =>
                if data.status = "success" then
                  successPatch it.id data used s.passG q1
                else errorPatchB it.id data q1
            | .netFail msg => errorPatchNet it.id msg q1
          { s with
            queue := q2
            passRemaining := rest
            isProcessing := !rest.isEmpty
            alog := s.alog ++ [AEvent.req it.id, AEvent.resp it.id] }
  | .schedPreview id v =>
      { s with timers := s.timers.filter (fun t => t.1 != id) ++ [(id, v)] }
  | .timerFire id =>
      match s.timers.find? (fun t => t.1 == id) with
      | none => s
      | some tv =>
          let s1 := { s with timers := s.timers.filter (fun t => t.1 != id) }
          match s.queue.find? (fun i => i.id == id) with
          | none => s1
          | some _ =>
              { s1 with inflightPrev := s1.inflightPrev ++ [(id, tv.2)] }
  | .prevResp id p =>
      if s.inflightPrev.any (fun t => t.1 == id) then
        { s with
          inflightPrev := s.inflightPrev.filter (fun t => t.1 != id)
          queue := previewApply id p s.queue }
      else s

/-- Running the machine over an event list. -/
def run (s : AppState) (evs : List Ev) : AppState :=
  evs.foldl step s

/-- The startup global settings (`DEFAULT_SETTINGS`): shutter `0.0167`
(written as the reduced fraction 167/10000 so that kernel evaluation can
inspect it), ISO 800, aperture `2.8` (14/5), sensitivity 50. -/
def defaultSettings : GSettings :=
  { t := JVal.num ⟨167, 10000, by norm_num, by norm_num⟩
    iso := JVal.num 800
    f := JVal.num ⟨14, 5, by norm_num, by norm_num⟩
    sensitivity := JVal.num 50 }

/-- The initial application state. -/
def init : AppState :=
  { queue := [], globals := defaultSettings, mode := Mode.jpeg,
    isProcessing := false, passRemaining := [], passG := defaultSettings,
    passMode := Mode.jpeg, timers := [], inflightPrev := [], revoked := [],
    alog := [] }

/-- A whole pass started from an unlocked state and run to snapshot
exhaustion: the start followed by one step per supplied outcome. -/
def runPassFn (s : AppState) (outs : List Outcome) : AppState :=
  outs.foldl (fun st o => step st (Ev.passStep o)) (step s Ev.startPass)

/-- The queue invariant of the specification: a pending or processing item is
never dirty. -/
def QInv (q : List Item) : Prop :=
  ∀ i ∈ q, (i.status = Status.pending ∨ i.status = Status.processing) →
    i.dirty = false

/-! ### Shared concrete data used by the claim theorems -/

/-- A first uploaded file. -/
def fA : FileSpec := ⟨"a", "img1", "blob:a"⟩

/-- A second uploaded file. -/
def fB : FileSpec := ⟨"b", "img2", "blob:b"⟩

/-- A successful analysis response. -/
def okData : AnalysisResult :=
  { status := "success", message := none, is_black_box := some true,
    blue_detected := some true, metrics := none }

/-- A backend-reported failure response. -/
def failData : AnalysisResult :=
  { status := "error", message := some "bad image", is_black_box := none,
    blue_detected := none, metrics := none }

/-- An empty preview payload. -/
def pd : PreviewData :=
  { is_black_box := none, blue_detected := none, metrics := none }

/-! ### Helper lemmas -/

/-- A value that is neither numeric zero nor a string is truthy exactly when
it is not the empty string. -/
theorem truthy_of_slot (v : JVal) (h1 : numSlotOk (some v) = true)
    (h2 : v ≠ JVal.str "") : v.truthy = true := by
  cases v with
  | num q => simp_all [numSlotOk, JVal.truthy]
  | str s => simp_all [JVal.truthy]

/-- The empty string is falsy. -/
theorem truthy_empty_str : (JVal.str "").truthy = false := by
  simp [JVal.truthy]

/-- The falsy-skipping fallback chain agrees with the first non-empty value
of the precedence list when no slot holds numeric zero. -/
theorem chain_firstNonEmpty : ∀ (l : List (Option JVal)) (v : JVal),
    (∀ x ∈ l, numSlotOk x = true) → firstNonEmpty l = some v →
    l.foldr jsOrD (JVal.num 0) = v := by
  intro l
  induction l with
  | nil => intro v _ hfe; simp [firstNonEmpty] at hfe
  | cons x rest ih =>
      intro v hok hfe
      rcases x with _ | w
      · have ht : firstNonEmpty rest = some v := hfe
        have := ih v (fun y hy => hok y (List.mem_cons_of_mem _ hy)) ht
        simpa [jsOrD] using this
      · by_cases hw : w = JVal.str ""
        · subst hw
          have ht : firstNonEmpty rest = some v := by
            simpa [firstNonEmpty] using hfe
          have := ih v (fun y hy => hok y (List.mem_cons_of_mem _ hy)) ht
          simpa [jsOrD, JVal.truthy] using this
        · have hv : w = v := by
            have h2 := hfe
            simp only [firstNonEmpty, if_neg hw, Option.some.injEq] at h2
            exact h2
          subst hv
          have hok1 : numSlotOk (some w) = true := hok _ (List.mem_cons_self _ _)
          simp [jsOrD, truthy_of_slot w hok1 hw]

/-- The nullish chain agrees with the first present value; on admissible
sensitivity slots (numbers only) present and non-empty coincide. -/
theorem nu_chain_firstNonEmpty : ∀ (l : List (Option JVal)) (v : JVal),
    (∀ x ∈ l, sensSlotOk x = true) → firstNonEmpty l = some v →
    l.foldr nu none = some v := by
  intro l
  induction l with
  | nil => intro v _ hfe; simp [firstNonEmpty] at hfe
  | cons x rest ih =>
      intro v hok hfe
      rcases x with _ | w
      · have ht : firstNonEmpty rest = some v := hfe
        have := ih v (fun y hy => hok y (List.mem_cons_of_mem _ hy)) ht
        simpa [nu] using this
      · rcases w with q | str0
        · have hv : v = JVal.num q := by
            simp only [firstNonEmpty] at hfe
            simp at hfe
            exact hfe.symm
          subst hv
          simp [nu]
        · have := hok _ (List.mem_cons_self _ _)
          simp [sensSlotOk] at this

/-- The nullish chain is absent exactly on the all-absent list of admissible
sensitivity slots. -/
theorem nu_chain_none : ∀ (l : List (Option JVal)),
    (∀ x ∈ l, sensSlotOk x = true) → firstNonEmpty l = none →
    l.foldr nu none = none := by
  intro l
  induction l with
  | nil => intro _ _; rfl
  | cons x rest ih =>
      intro hok hfe
      rcases x with _ | w
      · have := ih (fun y hy => hok y (List.mem_cons_of_mem _ hy)) hfe
        simpa [nu] using this
      · rcases w with q | str0
        · simp [firstNonEmpty] at hfe
        · have := hok _ (List.mem_cons_self _ _)
          simp [sensSlotOk] at this

/-- The resolver chains written as list folds. -/
theorem resolve_as_folds :
    (∀ ov snap glob, resolveNum ov snap glob =
      List.foldr jsOrD (JVal.num 0) [ov, snap, glob]) ∧
    (∀ sOv ov snap glob, resolveSens sOv ov snap glob =
      nuD (List.foldr nu none [sOv, ov, snap, glob]) (JVal.num 50)) := by
  constructor
  · intro ov snap glob; rfl
  · intro sOv ov snap glob
    rcases sOv <;> rcases ov <;> rcases snap <;> rcases glob <;>
      simp [resolveSens, nu, nuD]

/-- C1: for every item and every parameter field, the settings resolver of
`buildFormData` returns the first non-empty value in the precedence order
item override, then the settings snapshot of the item, then the current
global setting, then (for the sensitivity field only) the hard-coded default
50; the concrete cases resolve(5,3,1) = 5, resolve(absent,3,1) = 3,
resolve(absent,absent,1) = 1 hold for both resolver chains, the sensitivity
chain returns 50 when every layer is absent, and each field of the assembled
effective parameters is resolved from the slots of that field alone.
Admissibility of the slots reflects the value space of the program: numeric
zero never reaches a shutter or ISO slot (cleared inputs store the empty
string, user-typed overrides are raw strings) and sensitivity slots only hold
slider numbers. -/
theorem c1_settings_resolver :
    (∀ ov snap glob v, numSlotOk ov = true → numSlotOk snap = true →
      numSlotOk glob = true → firstNonEmpty [ov, snap, glob] = some v →
      resolveNum ov snap glob = v)
    ∧ (∀ sOv ov snap glob v, sensSlotOk sOv = true → sensSlotOk ov = true →
      sensSlotOk snap = true → sensSlotOk glob = true →
      firstNonEmpty [sOv, ov, snap, glob] = some v →
      resolveSens sOv ov snap glob = v)
    ∧ (∀ sOv ov snap glob, sensSlotOk sOv = true → sensSlotOk ov = true →
      sensSlotOk snap = true → sensSlotOk glob = true →
      firstNonEmpty [sOv, ov, snap, glob] = none →
      resolveSens sOv ov snap glob = JVal.num 50)
    ∧ resolveNum (some (JVal.num 5)) (some (JVal.num 3)) (some (JVal.num 1))
        = JVal.num 5
    ∧ resolveNum none (some (JVal.num 3)) (some (JVal.num 1)) = JVal.num 3
    ∧ resolveNum none none (some (JVal.num 1)) = JVal.num 1
    ∧ resolveSens none (some (JVal.num 5)) (some (JVal.num 3))
        (some (JVal.num 1)) = JVal.num 5
    ∧ resolveSens none none (some (JVal.num 3)) (some (JVal.num 1))
        = JVal.num 3
    ∧ resolveSens none none none (some (JVal.num 1)) = JVal.num 1
    ∧ resolveSens none none none none = JVal.num 50
    ∧ (∀ it sOv g mode,
        (buildUsedSettings it sOv g mode).t =
          resolveNum it.overrides.t (some it.globalSettingsUsed.t) (some g.t)
        ∧ (buildUsedSettings it sOv g mode).iso =
          resolveNum it.overrides.iso (some it.globalSettingsUsed.iso)
            (some g.iso)
        ∧ (buildUsedSettings it sOv g mode).sensitivity =
          resolveSens sOv it.overrides.sensitivity
            (some it.globalSettingsUsed.sensitivity) (some g.sensitivity)) := by
  refine ⟨?_, ?_, ?_, by decide, by decide, by decide, by decide, by decide,
    by decide, by decide, ?_⟩
  · intro ov snap glob v h1 h2 h3 hfe
    have : List.foldr jsOrD (JVal.num 0) [ov, snap, glob] = v := by
      refine chain_firstNonEmpty _ v ?_ hfe
      intro x hx
      simp only [List.mem_cons, List.mem_singleton] at hx
      rcases hx with rfl | rfl | rfl | h
      · exact h1
      · exact h2
      · exact h3
      · exact absurd h (List.not_mem_nil x)
    rw [resolve_as_folds.1]
    exact this
  · intro sOv ov snap glob v h0 h1 h2 h3 hfe
    have : List.foldr nu none [sOv, ov, snap, glob] = some v := by
      refine nu_chain_firstNonEmpty _ v ?_ hfe
      intro x hx
      simp only [List.mem_cons, List.mem_singleton] at hx
      rcases hx with rfl | rfl | rfl | rfl | h
      · exact h0
      · exact h1
      · exact h2
      · exact h3
      · exact absurd h (List.not_mem_nil x)
    rw [resolve_as_folds.2, this]
    rfl
  · intro sOv ov snap glob h0 h1 h2 h3 hfe
    have : List.foldr nu none [sOv, ov, snap, glob] = none := by
      refine nu_chain_none _ ?_ hfe
      intro x hx
      simp only [List.mem_cons, List.mem_singleton] at hx
      rcases hx with rfl | rfl | rfl | rfl | h
      · exact h0
      · exact h1
      · exact h2
      · exact h3
      · exact absurd h (List.not_mem_nil x)
    rw [resolve_as_folds.2, this]
    rfl
  · intro it sOv g mode
    exact ⟨rfl, rfl, rfl⟩

/-- C1 witness: the resolver applied at concrete admissible inputs through
the theorem above. -/
theorem c1_settings_resolver_witness :
    resolveNum (some (JVal.str "7")) (some (JVal.num 3)) (some (JVal.num 1))
      = JVal.str "7" :=
  c1_settings_resolver.1 _ _ _ _ (by decide) (by decide) (by decide)
    (by decide)

/-- C2: evaluation of the removal handler.  Removing the only item deletes it
from the queue but revokes nothing: the revocation log stays empty, although
the bulk clear handler does revoke the same handle.  A second removal of the
same id is a no-op.  The claim that removal releases the preview handle
exactly once is contradicted by the first two conjuncts. -/
theorem c2_remove_behaviour :
    (run init [Ev.addFiles [fA], Ev.removeIt "a"]).queue = []
    ∧ (run init [Ev.addFiles [fA], Ev.removeIt "a"]).revoked = []
    ∧ (run init [Ev.addFiles [fA], Ev.clearQ]).revoked = ["blob:a"]
    ∧ run init [Ev.addFiles [fA], Ev.removeIt "a", Ev.removeIt "a"]
      = run init [Ev.addFiles [fA], Ev.removeIt "a"] := by
  refine ⟨by decide, by decide, by decide, by decide⟩

/-- C3 counterexample trace: an item is analyzed to success, a preview is
scheduled from its sensitivity slider and dispatched, the item is then
retried (making it pending), and the late preview response lands. -/
def evsC3 : List Ev :=
  [Ev.addFiles [fA], Ev.startPass, Ev.passStep (Outcome.respond okData),
   Ev.schedPreview "a" 80, Ev.timerFire "a", Ev.retry "a",
   Ev.prevResp "a" pd]

/-- C3 counterexample: the reachable state after `evsC3` holds a pending item
with the dirty flag set, because the preview merge marks its target dirty
without checking the status; the invariant of the claim fails there. -/
theorem c3_counterexample :
    (run init evsC3).queue.map (fun i => (i.id, i.status, i.dirty)) =
      [("a", Status.pending, true)]
    ∧ ¬ QInv (run init evsC3).queue := by
  constructor
  · decide
  · intro h
    have hm : (run init evsC3).queue.map (fun i => (i.id, i.status, i.dirty)) =
        [("a", Status.pending, true)] := by decide
    rcases hq : (run init evsC3).queue with _ | ⟨i0, rest⟩
    · rw [hq] at hm; simp at hm
    · rw [hq] at hm
      simp only [List.map_cons, List.cons.injEq] at hm
      have h0 := h i0 (by rw [hq]; exact List.mem_cons_self _ _)
      have hst : i0.status = Status.pending := by
        have := hm.1
        simp only [Prod.mk.injEq] at this
        exact this.2.1
      have hd : i0.dirty = true := by
        have := hm.1
        simp only [Prod.mk.injEq] at this
        exact this.2.2
      have := h0 (Or.inl hst)
      rw [hd] at this
      simp at this

/-- The per-item form of the queue invariant. -/
def ItemInv (i : Item) : Prop :=
  (i.status = Status.pending ∨ i.status = Status.processing) → i.dirty = false

/-- Mapping a pointwise invariant-preserving function over the queue
preserves the invariant. -/
theorem qinv_map {f : Item → Item} (q : List Item)
    (h : ∀ i, ItemInv i → ItemInv (f i)) (hq : QInv q) : QInv (q.map f) := by
  intro j hj
  rcases List.mem_map.1 hj with ⟨i, hi, rfl⟩
  exact h i (hq i hi)

/-- Filtering preserves the invariant. -/
theorem qinv_filter (p : Item → Bool) (q : List Item) (hq : QInv q) :
    QInv (q.filter p) := by
  intro j hj
  exact hq j (List.mem_filter.1 hj).1

/-- A freshly created item satisfies the invariant (it is created clean). -/
theorem itemInv_mk (g : GSettings) (f0 : FileSpec) : ItemInv (mkItem g f0) :=
  fun _ => rfl

/-- The override-update transform preserves the invariant: only a `success`
item can be newly marked dirty. -/
theorem itemInv_updateOne (id : String) (ov : Overrides) (g : GSettings)
    (i : Item) (h : ItemInv i) : ItemInv (updateOneItem id ov g i) := by
  by_cases hid : i.id = id
  · simp only [updateOneItem, if_pos hid]
    intro hst
    have hst2 : i.status = Status.pending ∨ i.status = Status.processing := hst
    have hd : i.dirty = false := h hst2
    rcases hst2 with h1 | h1 <;> simp [h1, hd]
  · simpa [updateOneItem, if_neg hid] using h

/-- The retry transform preserves the invariant (it resets dirty). -/
theorem itemInv_retryOne (id : String) (i : Item) (h : ItemInv i) :
    ItemInv (retryOne id i) := by
  by_cases hid : i.id = id
  · simp only [retryOne, if_pos hid]
    intro _
    rfl
  · simpa [retryOne, if_neg hid] using h

/-- The capture-mode invalidation transform preserves the invariant: it only
marks terminal items. -/
theorem itemInv_markOne (i : Item) (h : ItemInv i) : ItemInv (markOneDirty i) := by
  by_cases ht : (decide (i.status = Status.success) ||
      decide (i.status = Status.error)) = true
  · simp only [markOneDirty, if_pos ht]
    intro hst
    have hst2 : i.status = Status.pending ∨ i.status = Status.processing := hst
    simp only [Bool.or_eq_true, decide_eq_true_eq] at ht
    rcases hst2 with h1 | h1 <;> rcases ht with h2 | h2 <;>
      rw [h1] at h2 <;> exact Status.noConfusion h2
  · simp only [markOneDirty, if_neg ht]
    exact h

/-- The processing-start patch preserves the invariant. -/
theorem qinv_processStart (id : String) (q : List Item) (hq : QInv q) :
    QInv (processStart id q) := by
  refine qinv_map q (fun i h => ?_) hq
  by_cases hid : i.id = id
  · simp only [if_pos hid]
    intro _
    rfl
  · simp only [if_neg hid]
    exact h

/-- The success patch preserves the invariant (it resets dirty). -/
theorem qinv_successPatch (id : String) (data : AnalysisResult) (used : Used)
    (g : GSettings) (q : List Item) (hq : QInv q) :
    QInv (successPatch id data used g q) := by
  refine qinv_map q (fun i h => ?_) hq
  by_cases hid : i.id = id
  · simp only [if_pos hid]
    intro _
    rfl
  · simp only [if_neg hid]
    exact h

/-- The backend-failure patch preserves the invariant (the item becomes
terminal). -/
theorem qinv_errorPatchB (id : String) (data : AnalysisResult)
    (q : List Item) (hq : QInv q) : QInv (errorPatchB id data q) := by
  refine qinv_map q (fun i h => ?_) hq
  by_cases hid : i.id = id
  · simp only [if_pos hid]
    intro hst
    rcases hst with h1 | h1 <;> exact Status.noConfusion h1
  · simp only [if_neg hid]
    exact h

/-- The transport-failure patch preserves the invariant. -/
theorem qinv_errorPatchNet (id : String) (msg : String)
    (q : List Item) (hq : QInv q) : QInv (errorPatchNet id msg q) := by
  refine qinv_map q (fun i h => ?_) hq
  by_cases hid : i.id = id
  · simp only [if_pos hid]
    intro hst
    rcases hst with h1 | h1 <;> exact Status.noConfusion h1
  · simp only [if_neg hid]
    exact h

/-- C3 (amended): every operation of the machine preserves the invariant
that a pending or processing item is never dirty — adding files, retry, the
processing transitions, override edits, capture-mode change, removal, clear,
pass control, preview scheduling and timer firing — with one exception: the
merge of a late preview response preserves it only when the merged item is
still in `success` or `error` status (or absent).  Without that side
condition the merge sets dirty on its target unconditionally, and the claim
as stated fails (see the counterexample). -/
theorem c3_invariant_preservation (s : AppState) (e : Ev)
    (hq : QInv s.queue)
    (hp : ∀ id p, e = Ev.prevResp id p →
      ∀ i ∈ s.queue, i.id = id →
        i.status = Status.success ∨ i.status = Status.error) :
    QInv (step s e).queue := by
  cases e with
  | addFiles fs =>
      simp only [step, addFilesQ]
      intro i hi
      rcases List.mem_append.1 hi with h | h
      · exact hq i h
      · rcases List.mem_map.1 h with ⟨f0, _, rfl⟩
        exact itemInv_mk _ _
  | removeIt id =>
      simp only [step, removeId]
      exact qinv_filter _ _ hq
  | clearQ =>
      intro i hi
      simp [step] at hi
  | updateOv id ov =>
      simp only [step, updateItemSettings]
      exact qinv_map _ (fun i h => itemInv_updateOne id ov s.globals i h) hq
  | retry id =>
      have hmain : QInv (retryPatch id s.queue) :=
        qinv_map _ (fun i h => itemInv_retryOne id i h) hq
      by_cases hP : s.isProcessing
      · simpa [step, hP, retryPatch] using hmain
      · by_cases hE : (passSnapshot s.queue).isEmpty
        · simpa [step, hP, hE, retryPatch] using hmain
        · simpa [step, hP, hE, retryPatch] using hmain
  | setMode m =>
      by_cases hm : m = s.mode
      · simpa [step, hm] using hq
      · simp only [step, if_neg hm, markModeDirty]
        exact qinv_map _ (fun i h => itemInv_markOne i h) hq
  | startPass =>
      by_cases hP : s.isProcessing
      · simpa [step, hP] using hq
      · by_cases hE : (passSnapshot s.queue).isEmpty
        · simpa [step, hP, hE] using hq
        · simpa [step, hP, hE] using hq
  | passStep o =>
      cases hrem : s.passRemaining with
      | nil => simpa [step, hrem] using hq
      | cons it rest =>
          have hq1 : QInv (processStart it.id s.queue) :=
            qinv_processStart _ _ hq
          cases o with
          | respond data =>
              by_cases hd : data.status = "success"
              · simpa [step, hrem, hd] using
                  qinv_successPatch it.id data
                    (buildUsedSettings it none s.passG s.passMode) s.passG _ hq1
              · simpa [step, hrem, hd] using qinv_errorPatchB it.id data _ hq1
          | netFail msg =>
              simpa [step, hrem] using qinv_errorPatchNet it.id msg _ hq1
  | schedPreview id v =>
      simpa [step] using hq
  | timerFire id =>
      cases h1 : s.timers.find? (fun t => t.1 == id) with
      | none => simpa [step, h1] using hq
      | some tv =>
          cases h2 : s.queue.find? (fun i => i.id == id) with
          | none => simpa [step, h1, h2] using hq
          | some it0 => simpa [step, h1, h2] using hq
  | prevResp id p =>
      by_cases hin : s.inflightPrev.any (fun t => t.1 == id)
      · simp only [step, if_pos hin, previewApply]
        intro j hj
        rcases List.mem_map.1 hj with ⟨i, hi, rfl⟩
        by_cases hid : i.id = id
        · have hterm := hp id p rfl i hi hid
          simp only [if_pos hid]
          intro hst
          have hst2 : i.status = Status.pending ∨ i.status = Status.processing :=
            hst
          rcases hst2 with h1 | h1 <;> rcases hterm with h2 | h2 <;>
            rw [h1] at h2 <;> exact Status.noConfusion h2
        · simp only [if_neg hid]
          exact hq i hi
      · simpa [step, hin] using hq

/-- C3 witness: the preservation theorem applied at a concrete state and
event, with the invariant and the side condition discharged there. -/
theorem c3_invariant_preservation_witness :
    QInv (step init (Ev.addFiles [fA])).queue :=
  c3_invariant_preservation init (Ev.addFiles [fA])
    (fun i hi => absurd hi (List.not_mem_nil i))
    (fun _ _ h => Ev.noConfusion h)

/-- Processing a nonempty remaining snapshot to exhaustion: the lock ends
released whatever the outcomes were, and the log grows by exactly one
request/response pair per snapshotted item, in snapshot order. -/
theorem pass_loop : ∀ (outs : List Outcome) (s : AppState),
    s.passRemaining ≠ [] → outs.length = s.passRemaining.length →
    (outs.foldl (fun st o => step st (Ev.passStep o)) s).isProcessing = false
    ∧ (outs.foldl (fun st o => step st (Ev.passStep o)) s).alog =
      s.alog ++ reqRespSeq (s.passRemaining.map (fun i => i.id)) := by
  intro outs
  induction outs with
  | nil =>
      intro s hne hlen
      exact absurd (List.length_eq_zero.1 hlen.symm) hne
  | cons o rest ih =>
      intro s hne hlen
      cases hrem : s.passRemaining with
      | nil => exact absurd hrem hne
      | cons it rem2 =>
          rw [hrem] at hlen
          simp only [List.length_cons, Nat.succ.injEq] at hlen
          have hstep : step s (Ev.passStep o) =
              { s with
                queue :=
                  (match o with
                    | Outcome.respond data =>
                        if data.status = "success" then
                          successPatch it.id data
                            (buildUsedSettings it none s.passG s.passMode)
                            s.passG (processStart it.id s.queue)
                        else errorPatchB it.id data (processStart it.id s.queue)
                    | Outcome.netFail msg =>
                        errorPatchNet it.id msg (processStart it.id s.queue))
                passRemaining := rem2
                isProcessing := !rem2.isEmpty
                alog := s.alog ++ [AEvent.req it.id, AEvent.resp it.id] } := by
            simp only [step, hrem]
          cases rem2 with
          | nil =>
              have hrest : rest = [] := List.length_eq_zero.1 hlen
              subst hrest
              simp only [List.foldl_cons, List.foldl_nil, hstep]
              constructor
              · rfl
              · simp [hrem, reqRespSeq]
          | cons it2 rem3 =>
              have h2 := ih (step s (Ev.passStep o))
                (by rw [hstep]; simp)
                (by rw [hstep]; simpa using hlen)
              simp only [List.foldl_cons]
              refine ⟨h2.1, ?_⟩
              rw [h2.2, hstep]
              simp [hrem, reqRespSeq, List.append_assoc]

/-- One request is always answered before the next is issued in the log
segment of a pass. -/
theorem atMostOne_reqRespSeq : ∀ (ids : List String),
    atMostOne (reqRespSeq ids) 0 = true := by
  intro ids
  induction ids with
  | nil => rfl
  | cons i rest ih => simpa [reqRespSeq, atMostOne] using ih

/-- C4: calling the pass runner while a pass is in flight is a no-op (the
whole state, the queue and the request log included, is unchanged); the
snapshot is a subsequence of the queue (queue order); and a pass started
from an unlocked state processes exactly the snapshotted items sequentially
— the log grows by one adjacent request/response pair per snapshot item in
order, so at most one full-analysis request is ever in flight — and releases
the lock when the snapshot is exhausted regardless of the individual
outcomes. -/
theorem c4_run_pass :
    (∀ s : AppState, s.isProcessing = true → step s Ev.startPass = s)
    ∧ (∀ q : List Item, List.Sublist (passSnapshot q) q)
    ∧ (∀ (s : AppState) (outs : List Outcome), s.isProcessing = false →
        outs.length = (passSnapshot s.queue).length →
        (runPassFn s outs).isProcessing = false
        ∧ (runPassFn s outs).alog =
          s.alog ++ reqRespSeq ((passSnapshot s.queue).map (fun i => i.id))
        ∧ atMostOne
            (reqRespSeq ((passSnapshot s.queue).map (fun i => i.id))) 0
            = true) := by
  refine ⟨?_, ?_, ?_⟩
  · intro s h
    simp [step, h]
  · intro q
    exact List.filter_sublist q
  · intro s outs hP hlen
    refine ?_
    have hstart : step s Ev.startPass =
        (if (passSnapshot s.queue).isEmpty then s
         else
          { s with
            isProcessing := true
            passRemaining := passSnapshot s.queue
            passG := s.globals
            passMode := s.mode }) := by
      simp only [step, hP]
      simp
    by_cases hE : (passSnapshot s.queue).isEmpty
    · have hsnap : passSnapshot s.queue = [] := by
        simpa using hE
      have houts : outs = [] := by
        rw [hsnap] at hlen
        simpa using List.length_eq_zero.1 hlen
      subst houts
      simp only [runPassFn, List.foldl_nil, hstart, if_pos hE]
      refine ⟨hP, ?_, ?_⟩
      · simp [hsnap, reqRespSeq]
      · simp [hsnap, reqRespSeq, atMostOne]
    · have hsnap : passSnapshot s.queue ≠ [] := by
        intro h0
        rw [h0] at hE
        simp at hE
      have h2 := pass_loop outs
        { s with
          isProcessing := true
          passRemaining := passSnapshot s.queue
          passG := s.globals
          passMode := s.mode }
        (by simpa using hsnap) (by simpa using hlen)
      simp only [runPassFn, hstart, if_neg hE]
      exact ⟨h2.1, h2.2, atMostOne_reqRespSeq _⟩

/-- C4 witness: the theorem applied at concrete states — the no-op branch at
a locked state and a full pass at the initial state. -/
theorem c4_run_pass_witness :
    step { init with isProcessing := true } Ev.startPass =
      { init with isProcessing := true }
    ∧ (runPassFn init []).isProcessing = false :=
  ⟨c4_run_pass.1 { init with isProcessing := true } rfl,
   (c4_run_pass.2.2 init [] rfl (by decide)).1⟩

/-- Effective parameters of a past analysis of the error item below. -/
def usedE : Used :=
  { t := JVal.num 2, iso := JVal.num 800, sensitivity := JVal.num 50,
    captureMode := Mode.jpeg }

/-- An item in `error` status whose last analysis used sensitivity 50. -/
def itemE : Item :=
  { id := "e", name := "img", status := Status.error, progress := 100,
    result := none, error := some "fail", preview := "p",
    globalSettingsUsed := defaultSettings, overrides := ⟨none, none, none⟩,
    dirty := false, lastAnalyzedWith := some usedE }

/-- An override patch setting sensitivity to 80. -/
def ovE : Overrides := ⟨none, none, some (JVal.num 80)⟩

/-- C5 counterexample: editing the sensitivity override of an `error` item
from the analyzed 50 to 80 replaces the overrides but leaves dirty false —
the update only ever marks `success` items — contradicting the claim that
invalidation applies to items in both the success and the error state. -/
theorem c5_counterexample :
    updateItemSettings "e" ovE defaultSettings [itemE] =
      [{ itemE with overrides := ovE }]
    ∧ itemE.status = Status.error
    ∧ itemE.dirty = false
    ∧ ({ itemE with overrides := ovE } : Item).dirty = false
    ∧ parseFloatJ (nuD ovE.sensitivity defaultSettings.sensitivity) = some 80
    ∧ parseFloatJ (nuD (itemE.lastAnalyzedWith.map (fun u => u.sensitivity))
        defaultSettings.sensitivity) = some 50 := by
  refine ⟨by decide, rfl, rfl, rfl, by decide, by decide⟩

/-- C5 (amended): the override update replaces the overrides of the matching
item and touches nothing else — status, result, error, progress, the
parameter records and the id are preserved, and other items are untouched;
the dirty flag afterwards is the old flag or-ed with the invalidation test,
which fires only when the item is in `success` status and the newly resolved
sensitivity differs, under the float parse, from the sensitivity of the last
analysis (each side falling back to the current global sensitivity).  In
particular an `error` item is never newly invalidated, dirty is never
cleared, and edits to fields other than sensitivity never invalidate. -/
theorem c5_update_overrides :
    (∀ id ov g (q : List Item),
      updateItemSettings id ov g q = q.map (updateOneItem id ov g))
    ∧ (∀ id ov g (i : Item), i.id ≠ id → updateOneItem id ov g i = i)
    ∧ (∀ id ov g (i : Item), i.id = id →
        (updateOneItem id ov g i).status = i.status
        ∧ (updateOneItem id ov g i).result = i.result
        ∧ (updateOneItem id ov g i).error = i.error
        ∧ (updateOneItem id ov g i).progress = i.progress
        ∧ (updateOneItem id ov g i).lastAnalyzedWith = i.lastAnalyzedWith
        ∧ (updateOneItem id ov g i).globalSettingsUsed = i.globalSettingsUsed
        ∧ (updateOneItem id ov g i).preview = i.preview
        ∧ (updateOneItem id ov g i).id = i.id
        ∧ (updateOneItem id ov g i).name = i.name
        ∧ (updateOneItem id ov g i).overrides = ov
        ∧ (updateOneItem id ov g i).dirty =
            (i.dirty || (decide (i.status = Status.success) &&
              jsStrictNeq (parseFloatJ (nuD ov.sensitivity g.sensitivity))
                (parseFloatJ (nuD
                  (i.lastAnalyzedWith.map (fun u => u.sensitivity))
                  g.sensitivity)))))
    ∧ (∀ id ov g (i : Item), i.id = id → i.status = Status.error →
        (updateOneItem id ov g i).dirty = i.dirty) := by
  refine ⟨fun id ov g q => rfl, ?_, ?_, ?_⟩
  · intro id ov g i h
    simp [updateOneItem, h]
  · intro id ov g i h
    simp [updateOneItem, if_pos h, Bool.or_comm]
  · intro id ov g i h hst
    simp [updateOneItem, h, hst]

/-- C5 witness: the amended characterization applied at the concrete error
item, discharging the hypotheses there. -/
theorem c5_update_overrides_witness :
    (updateOneItem "e" ovE defaultSettings itemE).dirty = itemE.dirty :=
  c5_update_overrides.2.2.2 "e" ovE defaultSettings itemE rfl rfl

/-- C6: when the capture mode actually changes, the queue is rewritten
pointwise: every item in `success` or `error` status gets exactly its dirty
flag set to true, and every `pending` or `processing` item is returned
entirely unchanged; no other field of any item is modified. -/
theorem c6_capture_mode_change :
    ∀ (s : AppState) (m : Mode), m ≠ s.mode →
      (step s (Ev.setMode m)).queue = s.queue.map markOneDirty
      ∧ (step s (Ev.setMode m)).mode = m
      ∧ ∀ it : Item,
          ((it.status = Status.success ∨ it.status = Status.error) →
            markOneDirty it = { it with dirty := true })
          ∧ ((it.status = Status.pending ∨ it.status = Status.processing) →
            markOneDirty it = it) := by
  intro s m hm
  refine ⟨?_, ?_, ?_⟩
  · simp [step, hm, markModeDirty]
  · simp [step, hm]
  · intro it
    constructor
    · intro h
      rcases h with h | h <;> simp [markOneDirty, h]
    · intro h
      rcases h with h | h <;> simp [markOneDirty, h]

/-- C6 witness: the theorem applied at the initial state with a genuine mode
change. -/
theorem c6_capture_mode_change_witness :
    (step init (Ev.setMode Mode.raw)).queue = init.queue.map markOneDirty :=
  (c6_capture_mode_change init Mode.raw (by decide)).1

/-- C7 counterexample trace, stopping right after the mid-pass retry: two
items are uploaded and analyzed (the second fails), the capture-mode change
marks both dirty, a second pass is started (snapshot: both items) and its
first step completes item a; the final event retries item b while that pass
is still in flight. -/
def evsC7pre : List Ev :=
  [Ev.addFiles [fA, fB], Ev.startPass, Ev.passStep (Outcome.respond okData),
   Ev.passStep (Outcome.respond failData), Ev.setMode Mode.raw,
   Ev.startPass, Ev.passStep (Outcome.respond okData), Ev.retry "b"]

/-- C7 counterexample trace continued by one more step of the running pass. -/
def evsC7 : List Ev := evsC7pre ++ [Ev.passStep (Outcome.respond okData)]

/-- C7 counterexample: after `evsC7pre` the pass is still in flight and item
b has just been retried (pending, clean); the next step of that same pass
still issues a request for b — the last two log entries — so the retried
item is processed by the pass that was already running, refuting the claim
that a retried item is never processed by the in-flight pass.  (Item b was
in the snapshot of that pass, taken when b was dirty.) -/
theorem c7_counterexample :
    evsC7 = evsC7pre ++ [Ev.passStep (Outcome.respond okData)]
    ∧ (run init evsC7pre).isProcessing = true
    ∧ (run init evsC7pre).queue.map (fun i => (i.id, i.status, i.dirty)) =
      [("a", Status.success, false), ("b", Status.pending, false)]
    ∧ (run init evsC7).alog =
      [AEvent.req "a", AEvent.resp "a", AEvent.req "b", AEvent.resp "b",
       AEvent.req "a", AEvent.resp "a", AEvent.req "b", AEvent.resp "b"]
    ∧ (run init evsC7).queue.map (fun i => (i.id, i.status)) =
      [("a", Status.success), ("b", Status.success)] := by
  refine ⟨rfl, by decide, by decide, by decide, by decide⟩

/-- C7 (amended): retry patches exactly the matching item — status pending,
error and result cleared, progress 0, dirty false, all other fields and all
other items unchanged.  If no pass is running it starts one — whose snapshot
is taken from the queue the handler was created over, which does not yet
contain the retry patch — and if that snapshot is empty the lock is released
immediately.  If a pass is running, the retry leaves that pass untouched: its
remaining snapshot, the lock and the request log are unchanged, so the
retried item is processed by the running pass exactly when it was already in
the snapshot taken at pass start. -/
theorem c7_retry :
    ∀ (s : AppState) (id : String),
      (step s (Ev.retry id)).queue = retryPatch id s.queue
      ∧ (∀ i : Item, i.id = id →
          retryOne id i = { i with
            status := Status.pending
            error := none
            result := none
            progress := 0
            dirty := false })
      ∧ (∀ i : Item, i.id ≠ id → retryOne id i = i)
      ∧ (s.isProcessing = true →
          (step s (Ev.retry id)).passRemaining = s.passRemaining
          ∧ (step s (Ev.retry id)).isProcessing = true
          ∧ (step s (Ev.retry id)).alog = s.alog)
      ∧ (s.isProcessing = false → passSnapshot s.queue ≠ [] →
          (step s (Ev.retry id)).isProcessing = true
          ∧ (step s (Ev.retry id)).passRemaining = passSnapshot s.queue)
      ∧ (s.isProcessing = false → passSnapshot s.queue = [] →
          (step s (Ev.retry id)).isProcessing = s.isProcessing
          ∧ (step s (Ev.retry id)).passRemaining = s.passRemaining) := by
  intro s id
  refine ⟨?_, ?_, ?_, ?_, ?_, ?_⟩
  · by_cases hP : s.isProcessing
    · simp [step, hP]
    · by_cases hE : (passSnapshot s.queue).isEmpty <;> simp [step, hP, hE]
  · intro i h
    simp [retryOne, h]
  · intro i h
    simp [retryOne, h]
  · intro hP
    simp [step, hP]
  · intro hP hE
    have hE2 : (passSnapshot s.queue).isEmpty = false := by
      cases hsnap : passSnapshot s.queue with
      | nil => exact absurd hsnap hE
      | cons a l => rfl
    simp [step, hP, hE2]
  · intro hP hE
    have hE2 : (passSnapshot s.queue).isEmpty = true := by
      rw [hE]; rfl
    simp [step, hP, hE2]

/-- C7 witness: the amended theorem applied at the initial state, where no
pass is running and the snapshot is empty. -/
theorem c7_retry_witness :
    (step init (Ev.retry "z")).isProcessing = init.isProcessing :=
  ((c7_retry init "z").2.2.2.2.2 rfl (by decide)).1

/-- Integer-valued settings snapshot for the export counterexample. -/
def gInt : GSettings :=
  { t := JVal.num 2, iso := JVal.num 800, f := JVal.num 2,
    sensitivity := JVal.num 50 }

/-- An error message containing the column delimiter and a row break: its
text coincides with a short message followed by a full well-formed row. -/
def errBig : String := "X\nimg2,jpeg,No,No,,,,,,,,,,2,800,50,error,E2"

/-- A failed item whose error message is `errBig`. -/
def itX : Item :=
  { id := "a", name := "img1", status := Status.error, progress := 100,
    result := none, error := some errBig, preview := "p1",
    globalSettingsUsed := gInt, overrides := ⟨none, none, none⟩,
    dirty := false, lastAnalyzedWith := none }

/-- The same item with the short error message. -/
def itY1 : Item := { itX with error := some "X" }

/-- A second failed item named img2 with error message E2. -/
def itY2 : Item :=
  { id := "b", name := "img2", status := Status.error, progress := 100,
    result := none, error := some "E2", preview := "p2",
    globalSettingsUsed := gInt, overrides := ⟨none, none, none⟩,
    dirty := false, lastAnalyzedWith := none }

set_option maxRecDepth 40000 in
/-- C8 counterexample: a field value containing the column delimiter is
written raw — nothing is escaped or quoted — so the delimiter inside the
value is indistinguishable from a column separator: the one-item queue whose
error field contains commas and a newline serializes to exactly the same
byte sequence as a different two-item queue. -/
theorem c8_counterexample :
    exportCSV Mode.jpeg [itX] = exportCSV Mode.jpeg [itY1, itY2]
    ∧ [itX] ≠ [itY1, itY2]
    ∧ itX.error = some errBig
    ∧ ',' ∈ errBig.data := by
  refine ⟨by decide, by decide, rfl, by decide⟩

/-- Rows depend only on the exported observables of an item. -/
theorem rowCells_obs (m : Mode) (i1 i2 : Item)
    (h : exportObs i1 = exportObs i2) : rowCells m i1 = rowCells m i2 := by
  simp only [exportObs, Prod.mk.injEq] at h
  obtain ⟨h1, h2, h3, h4, h5, h6⟩ := h
  simp [rowCells, metricCell, srcT, srcIso, srcSens, h1, h2, h3, h4, h5, h6]

/-- Row lists coincide on queues with equal observables. -/
theorem rows_obs (m : Mode) : ∀ (q1 q2 : List Item),
    q1.map exportObs = q2.map exportObs →
    q1.map (fun it => joinLine (rowCells m it)) =
      q2.map (fun it => joinLine (rowCells m it)) := by
  intro q1
  induction q1 with
  | nil =>
      intro q2 h
      cases q2 with
      | nil => rfl
      | cons b t => simp at h
  | cons a t ih =>
      intro q2 h
      cases q2 with
      | nil => simp at h
      | cons b t2 =>
          simp only [List.map_cons, List.cons.injEq] at h
          simp only [List.map_cons, List.cons.injEq]
          exact ⟨by rw [rowCells_obs m a b h.1], ih t2 h.2⟩

/-- C8 (amended): the export is deterministic in the strong sense — it is a
pure function of the capture mode and, per item in queue order, only of the
fields it reads (name, status, error, result, last-analysis record and
settings snapshot); two queues agreeing on those serialize to identical
bytes.  No escaping is applied on top of this (see the counterexample). -/
theorem c8_deterministic :
    ∀ (m : Mode) (q1 q2 : List Item),
      q1.map exportObs = q2.map exportObs →
      exportCSV m q1 = exportCSV m q2 := by
  intro m q1 q2 h
  have hlen : q1.length = q2.length := by
    have := congrArg List.length h
    simpa using this
  cases q1 with
  | nil =>
      cases q2 with
      | nil => rfl
      | cons b t => simp at hlen
  | cons a t =>
      cases q2 with
      | nil => simp at hlen
      | cons b t2 =>
          simp only [exportCSV, List.isEmpty_cons]
          rw [rows_obs m (a :: t) (b :: t2) h]

/-- C8 witness: two queues differing only in fields the export does not read
(the dirty flag) serialize identically, through the theorem. -/
theorem c8_deterministic_witness :
    exportCSV Mode.jpeg [itX] = exportCSV Mode.jpeg [{ itX with dirty := true }] :=
  c8_deterministic Mode.jpeg [itX] [{ itX with dirty := true }] rfl

/-- C9 counterexample trace: upload, schedule a preview, then remove the
item. -/
def evsC9 : List Ev :=
  [Ev.addFiles [fA], Ev.schedPreview "a" 80, Ev.removeIt "a"]

/-- C9 counterexample: after removing the item its scheduled preview timer
is still registered — removal does not cancel timers — refuting the claimed
cancellation mechanism. -/
theorem c9_counterexample :
    (run init evsC9).timers = [("a", 80)]
    ∧ (run init evsC9).queue = [] := by
  refine ⟨by decide, by decide⟩

/-- C9 (amended): removal never cancels a pending preview timer; the safety
of the claim nevertheless holds for queue state, because the late preview
merge is keyed by id and is the identity on a queue that no longer contains
that id — a deleted item is never mutated by a late preview response. -/
theorem c9_remove_timer_safety :
    (∀ (s : AppState) (id : String),
      (step s (Ev.removeIt id)).timers = s.timers)
    ∧ (∀ (id : String) (p : PreviewData) (q : List Item),
        (∀ i ∈ q, i.id ≠ id) → previewApply id p q = q)
    ∧ (∀ (s : AppState) (id : String) (p : PreviewData),
        (∀ i ∈ s.queue, i.id ≠ id) →
        (step s (Ev.prevResp id p)).queue = s.queue) := by
  have happly : ∀ (id : String) (p : PreviewData) (q : List Item),
      (∀ i ∈ q, i.id ≠ id) → previewApply id p q = q := by
    intro id p q h
    unfold previewApply
    induction q with
    | nil => rfl
    | cons a t ih =>
        simp only [List.map_cons]
        rw [if_neg (h a (List.mem_cons_self _ _)), ih]
        intro i hi
        exact h i (List.mem_cons_of_mem _ hi)
  refine ⟨?_, happly, ?_⟩
  · intro s id
    simp [step]
  · intro s id p h
    by_cases hin : s.inflightPrev.any (fun t => t.1 == id)
    · simp only [step, if_pos hin]
      exact happly id p s.queue h
    · simp [step, hin]

/-- C9 witness: the merge no-op applied at the concrete post-removal state,
which still holds the unrelated item b. -/
theorem c9_remove_timer_safety_witness :
    (step (run init [Ev.addFiles [fA, fB], Ev.schedPreview "a" 80,
        Ev.removeIt "a"]) (Ev.prevResp "a" pd)).queue =
      (run init [Ev.addFiles [fA, fB], Ev.schedPreview "a" 80,
        Ev.removeIt "a"]).queue :=
  c9_remove_timer_safety.2.2
    (run init [Ev.addFiles [fA, fB], Ev.schedPreview "a" 80, Ev.removeIt "a"])
    "a" pd (by decide)

/-- C10: in the export, the two boolean columns are rendered from the stored
result through a truthiness test, so an item with no result at all renders
the cells BlackBox and BlueDetected as the string No — byte-identical to an
analyzed item whose corresponding check returned false — and the export does
not distinguish never-analyzed from analyzed-and-failed in those columns. -/
theorem c10_csv_booleans :
    (∀ (m : Mode) (it : Item), it.result = none →
      (rowCells m it)[2]? = some "No" ∧ (rowCells m it)[3]? = some "No")
    ∧ (∀ (m : Mode) (it : Item) (r : AnalysisResult), it.result = some r →
        r.is_black_box = some false → (rowCells m it)[2]? = some "No")
    ∧ (∀ (m : Mode) (it : Item) (r : AnalysisResult), it.result = some r →
        r.blue_detected = some false → (rowCells m it)[3]? = some "No") := by
  refine ⟨?_, ?_, ?_⟩
  · intro m it h
    constructor <;> simp [rowCells, yesNoCell, h]
  · intro m it r h hb
    simp [rowCells, yesNoCell, h, hb]
  · intro m it r h hb
    simp [rowCells, yesNoCell, h, hb]

/-- An analyzed result whose checks both returned false. -/
def failedChecks : AnalysisResult :=
  { status := "success", message := none, is_black_box := some false,
    blue_detected := some false, metrics := none }

/-- C10 witness: the theorem applied at the concrete never-analyzed item and
at an analyzed item whose checks failed. -/
theorem c10_csv_booleans_witness :
    (rowCells Mode.jpeg itX)[2]? = some "No"
    ∧ (rowCells Mode.jpeg { itX with result := some failedChecks })[2]? =
      some "No" :=
  ⟨(c10_csv_booleans.1 Mode.jpeg itX rfl).1,
   c10_csv_booleans.2.1 Mode.jpeg { itX with result := some failedChecks }
     failedChecks rfl rfl⟩
